import Mathlib

/-!
Shallow embedding of the synth-recipes sine synthesizer
(src/juce/Source/PluginProcessor.cpp / .h and src/cli/main.cpp).

Doubles and floats are modelled as exact rationals; the transcendental
library calls std::sin and std::exp2 are modelled as function parameters
(the properties below do not depend on their values).  The decimal
constant TWO_PI from the source is the exact rational denoted by its
decimal literal.
-/

/-- The constant TWO_PI from PluginProcessor.cpp / main.cpp, read as an
exact decimal literal. -/
def TWO_PI : ℚ := 6.28318530717958647692528676655900576

/-- The mutable fields of SynthAudioProcessor (PluginProcessor.h lines
54-66): sampleRate, activeNote, frequency, amplitude, env, envSlope and
the oscillator variables phase and inc. -/
structure SynthState where
  sampleRate : ℚ
  activeNote : ℤ
  frequency : ℚ
  amplitude : ℚ
  env : ℚ
  envSlope : ℚ
  phase : ℚ
  inc : ℚ
  deriving DecidableEq, Repr

/-- SynthAudioProcessor::reset: phase = 0, inc = 0. -/
def reset (s : SynthState) : SynthState :=
  { s with phase := 0, inc := 0 }

/-- SynthAudioProcessor::prepareToPlay: stores the sample rate, clears
activeNote and env, then calls reset(). -/
def prepareToPlay (sampleRate' : ℚ) (s : SynthState) : SynthState :=
  reset { s with sampleRate := sampleRate', activeNote := 0, env := 0 }

/-- SynthAudioProcessor::startSound: inc = frequency * TWO_PI / sampleRate. -/
def startSound (s : SynthState) : SynthState :=
  { s with inc := s.frequency * TWO_PI / s.sampleRate }

/-- SynthAudioProcessor::noteOn.  std::exp2 is passed in as exp2q. -/
def noteOn (exp2q : ℚ → ℚ) (note velocity : ℤ) (s : SynthState) : SynthState :=
  startSound
    { s with
      activeNote := note
      amplitude := ((velocity : ℚ) / 127) * 0.5
      frequency := 440 * exp2q (((note : ℚ) - 69) / 12)
      envSlope := 1 / (s.sampleRate * 0.01) }

/-- SynthAudioProcessor::noteOff: only acts when the note matches the
active note; then clears activeNote and sets the release slope. -/
def noteOff (note : ℤ) (s : SynthState) : SynthState :=
  if s.activeNote = note then
    { s with activeNote := 0, envSlope := -1 / (s.sampleRate * 0.01) }
  else s

/-- SynthAudioProcessor::handleMIDI: dispatch on the status byte's high
nibble; 0x80 is note-off, 0x90 is note-on unless velocity is zero (then
note-off); everything else is ignored. -/
def handleMIDI (exp2q : ℚ → ℚ) (data0 data1 data2 : ℕ) (s : SynthState) : SynthState :=
  if data0 &&& 0xF0 = 0x80 then
    noteOff (data1 : ℤ) s
  else if data0 &&& 0xF0 = 0x90 then
    if 0 < data2 then noteOn exp2q (data1 : ℤ) (data2 : ℤ) s
    else noteOff (data1 : ℤ) s
  else s

/-- SynthAudioProcessor::processSample: output = amplitude * sin(phase);
phase += inc; one conditional wrap by TWO_PI.  std::sin is passed in as
sinq. -/
def processSample (sinq : ℚ → ℚ) (s : SynthState) : ℚ × SynthState :=
  let output := s.amplitude * sinq s.phase
  let phase1 := s.phase + s.inc
  let phase2 := if TWO_PI < phase1 then phase1 - TWO_PI else phase1
  (output, { s with phase := phase2 })

/-- The envelope update inside SynthAudioProcessor::render (lines
202-207): env += envSlope, clamped to [0, 1]. -/
def envTick (level slope : ℚ) : ℚ :=
  let e := level + slope
  if 1 ≤ e then 1 else if e ≤ 0 then 0 else e

/-- One iteration of the per-sample loop of SynthAudioProcessor::render
(lines 195-216): when the voice is active or the envelope is still open,
take one oscillator sample, advance and clamp the envelope, and scale;
otherwise output 0 and touch nothing. -/
def renderOneSample (sinq : ℚ → ℚ) (s : SynthState) : ℚ × SynthState :=
  if 0 < s.activeNote ∨ 0 < s.env then
    let r := processSample sinq s
    let env1 := envTick r.2.env r.2.envSlope
    (r.1 * env1, { r.2 with env := env1 })
  else (0, s)

/-- SynthAudioProcessor::render over a span of sampleCount samples:
the list of produced samples together with the final state. -/
def render (sinq : ℚ → ℚ) : ℕ → SynthState → List ℚ × SynthState
  | 0, s => ([], s)
  | n + 1, s =>
    let r := renderOneSample sinq s
    let rest := render sinq n r.2
    (r.1 :: rest.1, rest.2)

/-- A concrete all-zero state with a 48 kHz sample rate, used to
instantiate theorems at concrete inputs. -/
def testState : SynthState :=
  { sampleRate := 48000, activeNote := 0, frequency := 0, amplitude := 0,
    env := 0, envSlope := 0, phase := 0, inc := 0 }

/-- C3 (counterexample): a tick that lands exactly on TWO_PI is not
wrapped, because the wrap test in processSample is strict; the claimed
strict upper bound phase < 2*pi fails there while all the claim's
hypotheses hold. -/
theorem oscillator_phase_wrap_cex :
    0 ≤ ({ testState with phase := TWO_PI / 2, inc := TWO_PI / 2 } : SynthState).phase
    ∧ ({ testState with phase := TWO_PI / 2, inc := TWO_PI / 2 } : SynthState).phase < TWO_PI
    ∧ 0 ≤ ({ testState with phase := TWO_PI / 2, inc := TWO_PI / 2 } : SynthState).inc
    ∧ ({ testState with phase := TWO_PI / 2, inc := TWO_PI / 2 } : SynthState).inc < TWO_PI
    ∧ ¬ ((processSample id { testState with phase := TWO_PI / 2, inc := TWO_PI / 2 }).2.phase
          < TWO_PI) := by
  norm_num [processSample, testState, TWO_PI]

/-- C3 (amended): from 0 ≤ phase < 2*pi and 0 ≤ increment < 2*pi, one
tick returns amplitude * sin of the pre-advance phase, and the new phase
satisfies 0 ≤ phase ≤ 2*pi (the bound 2*pi itself is attainable, since
the wrap test is strict). -/
theorem oscillator_phase_wrap_bounds (sinq : ℚ → ℚ) (s : SynthState)
    (h0 : 0 ≤ s.phase) (h1 : s.phase < TWO_PI)
    (h2 : 0 ≤ s.inc) (h3 : s.inc < TWO_PI) :
    (processSample sinq s).1 = s.amplitude * sinq s.phase
    ∧ 0 ≤ (processSample sinq s).2.phase
    ∧ (processSample sinq s).2.phase ≤ TWO_PI := by
  refine ⟨rfl, ?_, ?_⟩ <;> simp only [processSample] <;> split <;>
    rename_i h <;> linarith

/-- Witness for oscillator_phase_wrap_bounds at a concrete state. -/
theorem oscillator_phase_wrap_bounds_witness :
    0 ≤ ({ testState with phase := 1, inc := 1 } : SynthState).phase
    ∧ ({ testState with phase := 1, inc := 1 } : SynthState).phase < TWO_PI
    ∧ 0 ≤ ({ testState with phase := 1, inc := 1 } : SynthState).inc
    ∧ ({ testState with phase := 1, inc := 1 } : SynthState).inc < TWO_PI
    ∧ ((processSample id { testState with phase := 1, inc := 1 }).1
        = ({ testState with phase := 1, inc := 1 } : SynthState).amplitude * id 1
      ∧ 0 ≤ (processSample id { testState with phase := 1, inc := 1 }).2.phase
      ∧ (processSample id { testState with phase := 1, inc := 1 }).2.phase ≤ TWO_PI) :=
  ⟨by norm_num [testState], by norm_num [testState, TWO_PI],
   by norm_num [testState], by norm_num [testState, TWO_PI],
   oscillator_phase_wrap_bounds id { testState with phase := 1, inc := 1 }
     (by norm_num [testState]) (by norm_num [testState, TWO_PI])
     (by norm_num [testState]) (by norm_num [testState, TWO_PI])⟩

/-- C4: starting from a level in [0, 1], one envelope tick (increment
then clamp) lands back in [0, 1] whatever the slope, and when the voice
is live the rendered sample is the oscillator output scaled by the
post-clamp level, which is also the stored new level. -/
theorem envelope_level_bounds (sinq : ℚ → ℚ) (s : SynthState)
    (h0 : 0 ≤ s.env) (h1 : s.env ≤ 1)
    (hact : 0 < s.activeNote ∨ 0 < s.env) :
    0 ≤ envTick s.env s.envSlope
    ∧ envTick s.env s.envSlope ≤ 1
    ∧ (renderOneSample sinq s).1 = (processSample sinq s).1 * envTick s.env s.envSlope
    ∧ (renderOneSample sinq s).2.env = envTick s.env s.envSlope := by
  refine ⟨?_, ?_, ?_, ?_⟩
  · simp only [envTick]; split
    · norm_num
    · split <;> linarith
  · simp only [envTick]; split
    · norm_num
    · split <;> linarith
  · simp only [renderOneSample, if_pos hact, processSample]
  · simp only [renderOneSample, if_pos hact, processSample]

/-- Witness for envelope_level_bounds at a concrete live state. -/
theorem envelope_level_bounds_witness :
    0 ≤ ({ testState with activeNote := 60, envSlope := 5 } : SynthState).env
    ∧ ({ testState with activeNote := 60, envSlope := 5 } : SynthState).env ≤ 1
    ∧ (0 < ({ testState with activeNote := 60, envSlope := 5 } : SynthState).activeNote
        ∨ 0 < ({ testState with activeNote := 60, envSlope := 5 } : SynthState).env)
    ∧ (0 ≤ envTick ({ testState with activeNote := 60, envSlope := 5 } : SynthState).env
            ({ testState with activeNote := 60, envSlope := 5 } : SynthState).envSlope
      ∧ envTick ({ testState with activeNote := 60, envSlope := 5 } : SynthState).env
            ({ testState with activeNote := 60, envSlope := 5 } : SynthState).envSlope ≤ 1
      ∧ (renderOneSample id { testState with activeNote := 60, envSlope := 5 }).1
          = (processSample id { testState with activeNote := 60, envSlope := 5 }).1
            * envTick ({ testState with activeNote := 60, envSlope := 5 } : SynthState).env
                ({ testState with activeNote := 60, envSlope := 5 } : SynthState).envSlope
      ∧ (renderOneSample id { testState with activeNote := 60, envSlope := 5 }).2.env
          = envTick ({ testState with activeNote := 60, envSlope := 5 } : SynthState).env
              ({ testState with activeNote := 60, envSlope := 5 } : SynthState).envSlope) :=
  ⟨by norm_num [testState], by norm_num [testState], by norm_num [testState],
   envelope_level_bounds id { testState with activeNote := 60, envSlope := 5 }
     (by norm_num [testState]) (by norm_num [testState]) (by norm_num [testState])⟩

/-- C5: a silent voice (no active note, envelope level zero) renders an
exact 0 sample and the whole state is returned unchanged. -/
theorem silent_renderOneSample_id (sinq : ℚ → ℚ) (s : SynthState)
    (h1 : s.activeNote = 0) (h2 : s.env = 0) :
    renderOneSample sinq s = (0, s) := by
  simp [renderOneSample, h1, h2]

/-- Witness for silent_renderOneSample_id at the concrete rest state. -/
theorem silent_renderOneSample_id_witness :
    testState.activeNote = 0 ∧ testState.env = 0
    ∧ renderOneSample id testState = (0, testState) :=
  ⟨by norm_num [testState], by norm_num [testState],
   silent_renderOneSample_id id testState (by norm_num [testState])
     (by norm_num [testState])⟩

/-- C6: a note-off for a note other than the active one changes nothing;
after on(60), on(64), off(60) the second note-on's state is intact with
active note 64; a matching note-off clears the active note and sets the
negative release slope -1 / (sampleRate * 0.01). -/
theorem noteOff_stale_ignored (exp2q : ℚ → ℚ) (s t u : SynthState) (note m : ℤ)
    (hne : t.activeNote ≠ note) (heq : u.activeNote = m) :
    noteOff note t = t
    ∧ noteOff 60 (noteOn exp2q 64 100 (noteOn exp2q 60 100 s))
        = noteOn exp2q 64 100 (noteOn exp2q 60 100 s)
    ∧ (noteOn exp2q 64 100 (noteOn exp2q 60 100 s)).activeNote = 64
    ∧ noteOff m u = { u with activeNote := 0, envSlope := -1 / (u.sampleRate * 0.01) } := by
  refine ⟨?_, ?_, ?_, ?_⟩
  · simp [noteOff, hne]
  · simp [noteOff, noteOn, startSound]
  · simp [noteOn, startSound]
  · simp [noteOff, heq]

/-- Witness for noteOff_stale_ignored at concrete states. -/
theorem noteOff_stale_ignored_witness :
    ({ testState with activeNote := 64 } : SynthState).activeNote ≠ 60
    ∧ ({ testState with activeNote := 5 } : SynthState).activeNote = 5
    ∧ (noteOff 60 { testState with activeNote := 64 } = { testState with activeNote := 64 }
      ∧ noteOff 60 (noteOn id 64 100 (noteOn id 60 100 testState))
          = noteOn id 64 100 (noteOn id 60 100 testState)
      ∧ (noteOn id 64 100 (noteOn id 60 100 testState)).activeNote = 64
      ∧ noteOff 5 { testState with activeNote := 5 }
          = { ({ testState with activeNote := 5 } : SynthState) with
              activeNote := 0,
              envSlope := -1 / (({ testState with activeNote := 5 } : SynthState).sampleRate
                                  * 0.01) }) :=
  ⟨by norm_num [testState], by norm_num [testState],
   noteOff_stale_ignored id testState { testState with activeNote := 64 }
     { testState with activeNote := 5 } 60 5
     (by norm_num [testState]) (by norm_num [testState])⟩

/-- C7 (counterexample): prepareToPlay does not reset peakAmplitude (nor
frequency, nor the envelope slope): two states that differ only in
amplitude still differ in amplitude after prepareToPlay, so the field is
carried over, not reset to an initial value. -/
theorem prepareToPlay_reset_cex :
    (prepareToPlay 48000 { testState with amplitude := 7 }).amplitude = 7
    ∧ (prepareToPlay 48000 { testState with amplitude := 9 }).amplitude = 9
    ∧ (7 : ℚ) ≠ 9 := by
  norm_num [prepareToPlay, reset, testState]

/-- C7 (amended): prepareToPlay stores the new sample rate and clears
activeNote, env, phase and inc, but leaves frequency, amplitude and
envSlope untouched (they are not reset by the code). -/
theorem prepareToPlay_fields (sampleRate' : ℚ) (s : SynthState) :
    prepareToPlay sampleRate' s
      = { s with sampleRate := sampleRate', activeNote := 0, env := 0,
                 phase := 0, inc := 0 }
    ∧ (prepareToPlay sampleRate' s).frequency = s.frequency
    ∧ (prepareToPlay sampleRate' s).amplitude = s.amplitude
    ∧ (prepareToPlay sampleRate' s).envSlope = s.envSlope := by
  refine ⟨?_, ?_, ?_, ?_⟩ <;> simp [prepareToPlay, reset]

/-- C9: noteOn computes peakAmplitude as (velocity / 127) * 0.5, which is
exactly 0.5 for velocity 127; and a note-on status byte carrying velocity
0 dispatches to noteOff, never to noteOn. -/
theorem velocity_amplitude_half (exp2q : ℚ → ℚ) (s t : SynthState)
    (note velocity : ℤ) (d0 d1 : ℕ) (h : d0 &&& 0xF0 = 0x90) :
    (noteOn exp2q note velocity s).amplitude = ((velocity : ℚ) / 127) * 0.5
    ∧ (noteOn exp2q 69 127 s).amplitude = 0.5
    ∧ handleMIDI exp2q d0 d1 0 t = noteOff (d1 : ℤ) t := by
  refine ⟨?_, ?_, ?_⟩
  · simp [noteOn, startSound]
  · norm_num [noteOn, startSound]
  · simp [handleMIDI, h]

/-- Witness for velocity_amplitude_half at concrete inputs. -/
theorem velocity_amplitude_half_witness :
    (0x93 : ℕ) &&& 0xF0 = 0x90
    ∧ ((noteOn id 69 127 testState).amplitude = ((127 : ℚ) / 127) * 0.5
      ∧ (noteOn id 69 127 testState).amplitude = 0.5
      ∧ handleMIDI id 0x93 60 0 testState = noteOff (60 : ℤ) testState) :=
  ⟨by decide,
   velocity_amplitude_half id testState testState 69 127 0x93 60 (by decide)⟩

/-- A float sample as seen by protectYourEars: NaN, an infinity, or a
finite value (modelled as an exact rational). -/
inductive FSample where
  | nan : FSample
  | inf : FSample
  | val : ℚ → FSample
  deriving DecidableEq, Repr

/-- The disqualifying tests of protectYourEars, in source order: NaN,
infinity, or a value outside [-2, 2] silences the whole buffer. -/
def isBadSample : FSample → Bool
  | .nan => true
  | .inf => true
  | .val v => decide (v < -2) || decide (2 < v)

/-- The clamp branches of protectYourEars: values below -1 become -1,
values above 1 become 1, everything else passes through. -/
def clampSample (v : ℚ) : ℚ :=
  if v < -1 then -1 else if 1 < v then 1 else v

/-- clampSample lifted to FSample (only finite values are clamped; the
non-finite constructors never reach this branch in the guard). -/
def clampFSample : FSample → FSample
  | .val v => .val (clampSample v)
  | x => x

/-- The scanning loop of protectYourEars: done holds the already-scanned
prefix in reverse; a disqualifying sample replaces the whole buffer
(memset) by zeros and stops. -/
def protectGo (total : ℕ) : List FSample → List FSample → List FSample
  | done, [] => done.reverse
  | done, x :: rest =>
    if isBadSample x then List.replicate total (FSample.val 0)
    else protectGo total (clampFSample x :: done) rest

/-- protectYourEars (PluginProcessor.cpp lines 151-185) over a span. -/
def protectYourEars (buf : List FSample) : List FSample :=
  protectGo buf.length [] buf

lemma protectGo_bad (total : ℕ) (rest done : List FSample)
    (h : ∃ x ∈ rest, isBadSample x = true) :
    protectGo total done rest = List.replicate total (FSample.val 0) := by
  induction rest generalizing done with
  | nil => obtain ⟨x, hx, _⟩ := h; cases hx
  | cons y ys ih =>
    obtain ⟨x, hx, hbad⟩ := h
    by_cases hy : isBadSample y = true
    · simp [protectGo, hy]
    · rcases List.mem_cons.mp hx with rfl | hx'
      · exact absurd hbad hy
      · simp only [protectGo, hy, if_false, Bool.false_eq_true]
        exact ih _ ⟨x, hx', hbad⟩

lemma protectGo_ok (total : ℕ) (rest done : List FSample)
    (h : ∀ x ∈ rest, isBadSample x = false) :
    protectGo total done rest = done.reverse ++ rest.map clampFSample := by
  induction rest generalizing done with
  | nil => simp [protectGo]
  | cons y ys ih =>
    have hy := h y (List.mem_cons_self y ys)
    simp only [protectGo, hy, Bool.false_eq_true, if_false]
    rw [ih _ fun x hx => h x (List.mem_cons_of_mem y hx)]
    simp

/-- C2: when a span contains a NaN, an infinity or a value of magnitude
above 2, the guard returns the all-zero span of the same length; when no
sample disqualifies, each sample is clamped independently; the clamp
fixes values above 1 to 1 and below -1 to -1 and leaves magnitudes at
most 1 (including exactly 1) unchanged. -/
theorem outputGuard_spec (buf1 buf2 : List FSample) (x : FSample) (v : ℚ)
    (hbad : x ∈ buf1 ∧ isBadSample x = true)
    (hok : ∀ y ∈ buf2, isBadSample y = false) :
    protectYourEars buf1 = List.replicate buf1.length (FSample.val 0)
    ∧ protectYourEars buf2 = buf2.map clampFSample
    ∧ (-1 ≤ v → v ≤ 1 → clampSample v = v)
    ∧ (1 < v → clampSample v = 1)
    ∧ (v < -1 → clampSample v = -1) := by
  refine ⟨?_, ?_, ?_, ?_, ?_⟩
  · exact protectGo_bad _ _ _ ⟨x, hbad.1, hbad.2⟩
  · simpa using protectGo_ok buf2.length buf2 [] hok
  · intro h1 h2
    have hn1 : ¬ v < -1 := by linarith
    have hn2 : ¬ 1 < v := by linarith
    simp [clampSample, hn1, hn2]
  · intro h1
    have hn1 : ¬ v < -1 := by linarith
    simp [clampSample, hn1, h1]
  · intro h1
    simp [clampSample, h1]

/-- Witness for outputGuard_spec: a span with a NaN is zeroed, a clean
span with an over-range sample is clamped sample-wise. -/
theorem outputGuard_spec_witness :
    (FSample.nan ∈ [FSample.val 0.5, FSample.nan, FSample.val 3]
      ∧ isBadSample FSample.nan = true)
    ∧ (∀ y ∈ [FSample.val 0.5, FSample.val 1.5, FSample.val 1],
        isBadSample y = false)
    ∧ (protectYourEars [FSample.val 0.5, FSample.nan, FSample.val 3]
        = List.replicate
            ([FSample.val 0.5, FSample.nan, FSample.val 3] : List FSample).length
            (FSample.val 0)
      ∧ protectYourEars [FSample.val 0.5, FSample.val 1.5, FSample.val 1]
          = ([FSample.val 0.5, FSample.val 1.5, FSample.val 1] : List FSample).map
              clampFSample
      ∧ (-1 ≤ (3/2 : ℚ) → (3/2 : ℚ) ≤ 1 → clampSample (3/2) = 3/2)
      ∧ (1 < (3/2 : ℚ) → clampSample (3/2) = 1)
      ∧ ((3/2 : ℚ) < -1 → clampSample (3/2) = -1)) :=
  ⟨⟨by simp, rfl⟩,
   by intro y hy; fin_cases hy <;> norm_num [isBadSample],
   outputGuard_spec [FSample.val 0.5, FSample.nan, FSample.val 3]
     [FSample.val 0.5, FSample.val 1.5, FSample.val 1] FSample.nan (3/2)
     ⟨by simp, rfl⟩
     (by intro y hy; fin_cases hy <;> norm_num [isBadSample])⟩

/-- One MIDI event as consumed by splitBufferByEvents: its sample
position within the block, its byte count, and its raw bytes. -/
structure MidiEvent where
  samplePosition : ℕ
  numBytes : ℕ
  data : List ℕ
  deriving DecidableEq, Repr

/-- Lines 116-120 of splitBufferByEvents: an event of at most 3 bytes is
forwarded to handleMIDI, with missing data bytes read as 0; longer
events are skipped. -/
def applyEvent (exp2q : ℚ → ℚ) (ev : MidiEvent) (s : SynthState) : SynthState :=
  if ev.numBytes ≤ 3 then
    handleMIDI exp2q (ev.data.getD 0 0)
      (if 2 ≤ ev.numBytes then ev.data.getD 1 0 else 0)
      (if ev.numBytes = 3 then ev.data.getD 2 0 else 0) s
  else s

/-- The event loop of SynthAudioProcessor::splitBufferByEvents: returns
the list of rendered spans as (offset, length) pairs, the final buffer
offset, and the final state. -/
def splitLoop (exp2q sinq : ℚ → ℚ) :
    List MidiEvent → ℕ → SynthState → List (ℕ × ℕ) × ℕ × SynthState
  | [], bufferOffset, s => ([], bufferOffset, s)
  | ev :: rest, bufferOffset, s =>
    let seg := ev.samplePosition - bufferOffset
    if 0 < seg then
      let s1 := (render sinq seg s).2
      let r := splitLoop exp2q sinq rest (bufferOffset + seg) (applyEvent exp2q ev s1)
      ((bufferOffset, seg) :: r.1, r.2)
    else
      splitLoop exp2q sinq rest bufferOffset (applyEvent exp2q ev s)

/-- SynthAudioProcessor::splitBufferByEvents: the event loop followed by
the final segment [bufferOffset, numSamples) when non-empty.  Returns
the rendered spans and the final state. -/
def splitBufferByEvents (exp2q sinq : ℚ → ℚ) (numSamples : ℕ)
    (events : List MidiEvent) (s : SynthState) : List (ℕ × ℕ) × SynthState :=
  let r := splitLoop exp2q sinq events 0 s
  let last := numSamples - r.2.1
  if 0 < last then (r.1 ++ [(r.2.1, last)], (render sinq last r.2.2).2)
  else (r.1, r.2.2)

/-- The span structure of the event loop as a function of the event
offsets alone. -/
def spanLoop : List ℕ → ℕ → List (ℕ × ℕ) × ℕ
  | [], c => ([], c)
  | o :: rest, c =>
    let seg := o - c
    if 0 < seg then
      let r := spanLoop rest (c + seg)
      ((c, seg) :: r.1, r.2)
    else spanLoop rest c

/-- The span structure of a whole block as a function of the event
offsets alone. -/
def splitSpans (numSamples : ℕ) (offsets : List ℕ) : List (ℕ × ℕ) :=
  let r := spanLoop offsets 0
  let last := numSamples - r.2
  if 0 < last then r.1 ++ [(r.2, last)] else r.1

lemma splitLoop_eq_spanLoop (exp2q sinq : ℚ → ℚ) (events : List MidiEvent)
    (c : ℕ) (s : SynthState) :
    (splitLoop exp2q sinq events c s).1
        = (spanLoop (events.map MidiEvent.samplePosition) c).1
    ∧ (splitLoop exp2q sinq events c s).2.1
        = (spanLoop (events.map MidiEvent.samplePosition) c).2 := by
  induction events generalizing c s with
  | nil => exact ⟨rfl, rfl⟩
  | cons ev rest ih =>
    simp only [splitLoop, spanLoop, List.map_cons]
    split
    · exact ⟨by simp [(ih _ _).1], (ih _ _).2⟩
    · exact ih _ _

lemma splitBufferByEvents_eq_splitSpans (exp2q sinq : ℚ → ℚ) (numSamples : ℕ)
    (events : List MidiEvent) (s : SynthState) :
    (splitBufferByEvents exp2q sinq numSamples events s).1
      = splitSpans numSamples (events.map MidiEvent.samplePosition) := by
  have h := splitLoop_eq_spanLoop exp2q sinq events 0 s
  simp only [splitBufferByEvents, splitSpans, h.1, h.2]
  split <;> simp

lemma spanLoop_partition (offsets : List ℕ) (c : ℕ)
    (hsorted : offsets.Pairwise (· ≤ ·))
    (hge : ∀ o ∈ offsets, c ≤ o) :
    ((spanLoop offsets c).1.flatMap fun p => List.range' p.1 p.2)
        = List.range' c ((spanLoop offsets c).2 - c)
    ∧ c ≤ (spanLoop offsets c).2
    ∧ ((spanLoop offsets c).2 = c ∨ (spanLoop offsets c).2 ∈ offsets)
    ∧ (∀ p ∈ (spanLoop offsets c).1, 0 < p.2) := by
  induction offsets generalizing c with
  | nil => simp [spanLoop]
  | cons o rest ih =>
    have hco : c ≤ o := hge o (List.mem_cons_self o rest)
    have hrest := List.pairwise_cons.mp hsorted
    simp only [spanLoop]
    by_cases hclt : c < o
    · rw [if_pos (show 0 < o - c by omega)]
      have e1 : c + (o - c) = o := by omega
      rw [e1]
      obtain ⟨ih1, ih2, ih3, ih4⟩ := ih o hrest.2 fun x hx => hrest.1 x hx
      refine ⟨?_, by omega, ?_, ?_⟩
      · simp only [List.flatMap_cons, ih1]
        have happ := List.range'_append_1 c (o - c) ((spanLoop rest o).2 - o)
        rw [e1] at happ
        rw [happ]
        congr 1
        omega
      · rcases ih3 with h | h
        · exact Or.inr (by rw [h]; exact List.mem_cons_self o rest)
        · exact Or.inr (List.mem_cons_of_mem o h)
      · intro p hp
        rcases List.mem_cons.mp hp with rfl | hp'
        · simpa using Nat.sub_pos_of_lt hclt
        · exact ih4 p hp'
    · have heq : o = c := by omega
      rw [if_neg (show ¬ 0 < o - c by omega)]
      obtain ⟨ih1, ih2, ih3, ih4⟩ := ih c hrest.2 fun x hx => heq ▸ hrest.1 x hx
      refine ⟨ih1, ih2, ?_, ih4⟩
      rcases ih3 with h | h
      · exact Or.inl h
      · exact Or.inr (List.mem_cons_of_mem o h)

lemma splitSpans_partition (numSamples : ℕ) (offsets : List ℕ)
    (hsorted : offsets.Pairwise (· ≤ ·))
    (hlt : ∀ o ∈ offsets, o < numSamples) :
    ((splitSpans numSamples offsets).flatMap fun p => List.range' p.1 p.2)
        = List.range numSamples
    ∧ ∀ p ∈ splitSpans numSamples offsets, 0 < p.2 := by
  obtain ⟨h1, h2, h3, h4⟩ :=
    spanLoop_partition offsets 0 hsorted fun o _ => Nat.zero_le o
  have hr2 : (spanLoop offsets 0).2 = 0 ∨ (spanLoop offsets 0).2 < numSamples := by
    rcases h3 with h | h
    · exact Or.inl h
    · exact Or.inr (hlt _ h)
  simp only [splitSpans]
  by_cases hlast : 0 < numSamples - (spanLoop offsets 0).2
  · rw [if_pos hlast]
    constructor
    · rw [List.flatMap_append, h1]
      simp only [List.flatMap_cons, List.flatMap_nil, List.append_nil,
        Nat.sub_zero]
      have happ := List.range'_append_1 0 (spanLoop offsets 0).2
        (numSamples - (spanLoop offsets 0).2)
      rw [Nat.zero_add] at happ
      rw [happ, List.range_eq_range']
      congr 1
      omega
    · intro p hp
      rcases List.mem_append.mp hp with hp' | hp'
      · exact h4 p hp'
      · rcases List.mem_singleton.mp hp' with rfl
        simpa using hlast
  · rw [if_neg hlast]
    have hz : numSamples = 0 ∧ (spanLoop offsets 0).2 = 0 := by omega
    constructor
    · rw [h1, hz.1, hz.2]
      simp [List.range_eq_range']
    · exact fun p hp => h4 p hp

/-- C1: for a block of numSamples frames and time-ordered events with
offsets inside the block, the rendered spans of splitBufferByEvents
cover every frame exactly once and in order; every emitted span is
non-empty; the MIDI effect of an event follows the status dispatch of
handleMIDI (0x8 note-off, 0x9 with velocity 0 note-off, 0x9 with
positive velocity note-on, all else ignored); and an event at or before
the cursor renders nothing before its effect is applied, so events
sharing an offset are applied back to back. -/
theorem eventScheduler_partition (exp2q sinq : ℚ → ℚ) (numSamples : ℕ)
    (events : List MidiEvent) (s t : SynthState) (d0 d1 d2 : ℕ)
    (ev : MidiEvent) (rest : List MidiEvent) (c : ℕ)
    (hsorted : (events.map MidiEvent.samplePosition).Pairwise (· ≤ ·))
    (hlt : ∀ e ∈ events, e.samplePosition < numSamples)
    (hle : ev.samplePosition ≤ c) :
    ((splitBufferByEvents exp2q sinq numSamples events s).1.flatMap
        fun p => List.range' p.1 p.2) = List.range numSamples
    ∧ ((splitBufferByEvents exp2q sinq numSamples events s).1.all
        fun p => decide (0 < p.2)) = true
    ∧ (d0 &&& 0xF0 = 0x80 → handleMIDI exp2q d0 d1 d2 t = noteOff (d1 : ℤ) t)
    ∧ (d0 &&& 0xF0 = 0x90 → 0 < d2 →
        handleMIDI exp2q d0 d1 d2 t = noteOn exp2q (d1 : ℤ) (d2 : ℤ) t)
    ∧ (d0 &&& 0xF0 = 0x90 → d2 = 0 → handleMIDI exp2q d0 d1 d2 t = noteOff (d1 : ℤ) t)
    ∧ (d0 &&& 0xF0 ≠ 0x80 → d0 &&& 0xF0 ≠ 0x90 → handleMIDI exp2q d0 d1 d2 t = t)
    ∧ splitLoop exp2q sinq (ev :: rest) c t
        = splitLoop exp2q sinq rest c (applyEvent exp2q ev t) := by
  have hlt' : ∀ o ∈ events.map MidiEvent.samplePosition, o < numSamples := by
    intro o ho
    obtain ⟨e, he, rfl⟩ := List.mem_map.mp ho
    exact hlt e he
  obtain ⟨hpart, hpos⟩ := splitSpans_partition numSamples
    (events.map MidiEvent.samplePosition) hsorted hlt'
  have hspans := splitBufferByEvents_eq_splitSpans exp2q sinq numSamples events s
  refine ⟨?_, ?_, ?_, ?_, ?_, ?_, ?_⟩
  · rw [hspans]; exact hpart
  · rw [hspans]
    exact List.all_eq_true.mpr fun p hp => decide_eq_true (hpos p hp)
  · intro h; simp [handleMIDI, h]
  · intro h hv; simp [handleMIDI, h, hv]
  · intro h hv; simp [handleMIDI, h, hv]
  · intro h1 h2; simp [handleMIDI, h1, h2]
  · simp only [splitLoop]
    rw [if_neg (show ¬ 0 < ev.samplePosition - c by omega)]

/-- Witness for eventScheduler_partition: a 4-frame block with a note-on
and a note-off both at offset 1, the example from the specification. -/
theorem eventScheduler_partition_witness :
    (([⟨1, 3, [0x90, 60, 100]⟩, ⟨1, 3, [0x80, 60, 0]⟩] : List MidiEvent).map
        MidiEvent.samplePosition).Pairwise (· ≤ ·)
    ∧ (∀ e ∈ ([⟨1, 3, [0x90, 60, 100]⟩, ⟨1, 3, [0x80, 60, 0]⟩] : List MidiEvent),
        e.samplePosition < 4)
    ∧ (⟨1, 3, [0x80, 60, 0]⟩ : MidiEvent).samplePosition ≤ 1
    ∧ (((splitBufferByEvents id id 4
          [⟨1, 3, [0x90, 60, 100]⟩, ⟨1, 3, [0x80, 60, 0]⟩] testState).1.flatMap
            fun p => List.range' p.1 p.2) = List.range 4
      ∧ ((splitBufferByEvents id id 4
          [⟨1, 3, [0x90, 60, 100]⟩, ⟨1, 3, [0x80, 60, 0]⟩] testState).1.all
            fun p => decide (0 < p.2)) = true
      ∧ ((0x80 : ℕ) &&& 0xF0 = 0x80 →
          handleMIDI id 0x80 60 0 testState = noteOff (60 : ℤ) testState)
      ∧ ((0x80 : ℕ) &&& 0xF0 = 0x90 → 0 < 0 →
          handleMIDI id 0x80 60 0 testState = noteOn id (60 : ℤ) (0 : ℤ) testState)
      ∧ ((0x80 : ℕ) &&& 0xF0 = 0x90 → 0 = 0 →
          handleMIDI id 0x80 60 0 testState = noteOff (60 : ℤ) testState)
      ∧ ((0x80 : ℕ) &&& 0xF0 ≠ 0x80 → (0x80 : ℕ) &&& 0xF0 ≠ 0x90 →
          handleMIDI id 0x80 60 0 testState = testState)
      ∧ splitLoop id id [⟨1, 3, [0x80, 60, 0]⟩] 1 testState
          = splitLoop id id [] 1 (applyEvent id ⟨1, 3, [0x80, 60, 0]⟩ testState)) :=
  ⟨by decide, by decide, by decide,
   eventScheduler_partition id id 4
     [⟨1, 3, [0x90, 60, 100]⟩, ⟨1, 3, [0x80, 60, 0]⟩] testState testState
     0x80 60 0 ⟨1, 3, [0x80, 60, 0]⟩ [] 1
     (by decide) (by decide) (by decide)⟩

/-- C10: an event longer than 3 bytes, or whose status high nibble is
neither 0x8 nor 0x9, applies no MIDI effect (the state is untouched),
while the span structure of the block is a function of the event offsets
alone, so such an event still terminates the running span at its
timestamp. -/
theorem unrecognizedEvent_still_splits (exp2q sinq : ℚ → ℚ) (ev : MidiEvent)
    (u s : SynthState) (numSamples : ℕ) (events : List MidiEvent)
    (h : 3 < ev.numBytes
        ∨ ((ev.data.getD 0 0) &&& 0xF0 ≠ 0x80 ∧ (ev.data.getD 0 0) &&& 0xF0 ≠ 0x90)) :
    applyEvent exp2q ev u = u
    ∧ (splitBufferByEvents exp2q sinq numSamples events s).1
        = splitSpans numSamples (events.map MidiEvent.samplePosition) := by
  refine ⟨?_, splitBufferByEvents_eq_splitSpans exp2q sinq numSamples events s⟩
  rcases h with h | h
  · simp [applyEvent, show ¬ ev.numBytes ≤ 3 by omega]
  · by_cases h3 : ev.numBytes ≤ 3
    · have h1 := h.1
      have h2 := h.2
      simp only [List.getD, List.get?_eq_getElem?] at h1 h2
      simp [applyEvent, h3, handleMIDI, h1, h2]
    · simp [applyEvent, h3]

/-- Witness for unrecognizedEvent_still_splits: a 4-byte event in a
3-frame block. -/
theorem unrecognizedEvent_still_splits_witness :
    (3 < (⟨2, 4, [0x90, 60, 100, 7]⟩ : MidiEvent).numBytes
      ∨ (((⟨2, 4, [0x90, 60, 100, 7]⟩ : MidiEvent).data.getD 0 0) &&& 0xF0 ≠ 0x80
        ∧ ((⟨2, 4, [0x90, 60, 100, 7]⟩ : MidiEvent).data.getD 0 0) &&& 0xF0 ≠ 0x90))
    ∧ (applyEvent id (⟨2, 4, [0x90, 60, 100, 7]⟩ : MidiEvent) testState = testState
      ∧ (splitBufferByEvents id id 3 [⟨2, 4, [0x90, 60, 100, 7]⟩] testState).1
          = splitSpans 3
              (([⟨2, 4, [0x90, 60, 100, 7]⟩] : List MidiEvent).map
                MidiEvent.samplePosition)) :=
  ⟨by decide,
   unrecognizedEvent_still_splits id id ⟨2, 4, [0x90, 60, 100, 7]⟩ testState testState
     3 [⟨2, 4, [0x90, 60, 100, 7]⟩] (by decide)⟩

/-- Two little-endian bytes of a 16-bit field, as laid out by the
fwrite calls in main.cpp. -/
def le16 (x : ℕ) : List ℕ := [x % 256, x / 256 % 256]

/-- Four little-endian bytes of a 32-bit field, as laid out by the
fwrite calls in main.cpp. -/
def le32 (x : ℕ) : List ℕ :=
  [x % 256, x / 256 % 256, x / 65536 % 256, x / 16777216 % 256]

/-- The 44 header bytes written by main.cpp (lines 90-112), in fwrite
order: RIFF, length = 44 + dataLength, WAVE, fmt , block size 16,
format 1, channels 1, sample rate, byte rate, block align 2,
bits-per-sample 16, data, dataLength. -/
def wavHeader (srate dataLength : ℕ) : List ℕ :=
  [0x52, 0x49, 0x46, 0x46] ++ le32 (44 + dataLength)
    ++ [0x57, 0x41, 0x56, 0x45] ++ [0x66, 0x6D, 0x74, 0x20] ++ le32 16
    ++ le16 1 ++ le16 1 ++ le32 srate ++ le32 (srate * 2)
    ++ le16 2 ++ le16 16 ++ [0x64, 0x61, 0x74, 0x61] ++ le32 dataLength

/-- Little-endian decoding: the value of n bytes starting at offset off. -/
def readLE (bytes : List ℕ) : ℕ → ℕ → ℕ
  | _, 0 => 0
  | off, n + 1 => bytes.getD off 0 + 256 * readLE bytes (off + 1) n

/-- Truncation toward zero, the effect of static_cast from double to a
signed integer type in C++. -/
def ratTrunc (q : ℚ) : ℤ := if 0 ≤ q then ⌊q⌋ else ⌈q⌉

/-- The sample conversion of main.cpp line 81:
static_cast to int16_t of output * 32767.0. -/
def sampleToPcm (x : ℚ) : ℤ := ratTrunc (x * 32767)

/-- C8 (counterexample): for one sample (dataLength 2) the RIFF length
field holds 46 = dataLength + 44, not dataLength + 36; and the sample
0.5 is written as 16383 (truncation), not round(0.5 * 32767) = 16384. -/
theorem wavWriter_cex :
    readLE (wavHeader 48000 2) 4 4 = 46
    ∧ (46 : ℕ) ≠ 2 + 36
    ∧ sampleToPcm (1/2) = 16383
    ∧ round ((1/2 : ℚ) * 32767) = 16384
    ∧ (16383 : ℤ) ≠ 16384 := by
  refine ⟨by decide, by decide, ?_, ?_, by decide⟩
  · norm_num [sampleToPcm, ratTrunc]
  · rw [round_eq]; norm_num

/-- C8 (amended): the header is 44 bytes; decoded little-endian, the
RIFF length field holds dataLength + 44 (the file length, 8 more than
the canonical dataLength + 36), block size 16, format tag 1 (PCM), one
channel, the sample rate, byte rate sampleRate * 2, block align 2, 16
bits per sample, and the data length; the four magic tags read RIFF,
WAVE, fmt and data; each sample is the truncation toward zero (not the
rounding) of floatSample * 32767, which fits in int16 when the sample
is within [-1, 1]. -/
theorem wavWriter_layout (srate dl : ℕ) (x : ℚ)
    (hx1 : -1 ≤ x) (hx2 : x ≤ 1) :
    (wavHeader srate dl).length = 44
    ∧ readLE (wavHeader srate dl) 0 4 = 0x46464952
    ∧ readLE (wavHeader srate dl) 4 4 = (44 + dl) % 4294967296
    ∧ readLE (wavHeader srate dl) 8 4 = 0x45564157
    ∧ readLE (wavHeader srate dl) 12 4 = 0x20746D66
    ∧ readLE (wavHeader srate dl) 16 4 = 16
    ∧ readLE (wavHeader srate dl) 20 2 = 1
    ∧ readLE (wavHeader srate dl) 22 2 = 1
    ∧ readLE (wavHeader srate dl) 24 4 = srate % 4294967296
    ∧ readLE (wavHeader srate dl) 28 4 = (srate * 2) % 4294967296
    ∧ readLE (wavHeader srate dl) 32 2 = 2
    ∧ readLE (wavHeader srate dl) 34 2 = 16
    ∧ readLE (wavHeader srate dl) 36 4 = 0x61746164
    ∧ readLE (wavHeader srate dl) 40 4 = dl % 4294967296
    ∧ sampleToPcm x = ratTrunc (x * 32767)
    ∧ -32767 ≤ sampleToPcm x
    ∧ sampleToPcm x ≤ 32767 := by
  have hl : (-32767 : ℚ) ≤ x * 32767 := by nlinarith
  have hr : x * 32767 ≤ 32767 := by nlinarith
  have hrange : -32767 ≤ sampleToPcm x ∧ sampleToPcm x ≤ 32767 := by
    unfold sampleToPcm ratTrunc
    split
    · constructor
      · have h0 : (0:ℤ) ≤ ⌊x * 32767⌋ := Int.floor_nonneg.mpr (by assumption)
        omega
      · calc ⌊x * 32767⌋ ≤ ⌊((32767:ℤ):ℚ)⌋ := Int.floor_mono (by push_cast; linarith)
          _ = 32767 := Int.floor_intCast _
    · constructor
      · calc (-32767 : ℤ) = ⌈((-32767:ℤ):ℚ)⌉ := (Int.ceil_intCast _).symm
          _ ≤ ⌈x * 32767⌉ := Int.ceil_mono (by push_cast; linarith)
      · have h0 : ⌈x * 32767⌉ ≤ 0 := Int.ceil_le.mpr (by push_cast; linarith)
        omega
  refine ⟨by simp [wavHeader, le16, le32], ?_, ?_, ?_, ?_, ?_, ?_, ?_, ?_, ?_,
    ?_, ?_, ?_, ?_, rfl, hrange.1, hrange.2⟩ <;>
    simp only [wavHeader, le16, le32, List.cons_append, List.nil_append,
      readLE, List.getD_cons_zero, List.getD_cons_succ] <;>
    omega

/-- Witness for wavWriter_layout at a concrete rate, length and sample. -/
theorem wavWriter_layout_witness :
    (-1 : ℚ) ≤ 1/2 ∧ (1/2 : ℚ) ≤ 1
    ∧ ((wavHeader 48000 1000).length = 44
      ∧ readLE (wavHeader 48000 1000) 0 4 = 0x46464952
      ∧ readLE (wavHeader 48000 1000) 4 4 = (44 + 1000) % 4294967296
      ∧ readLE (wavHeader 48000 1000) 8 4 = 0x45564157
      ∧ readLE (wavHeader 48000 1000) 12 4 = 0x20746D66
      ∧ readLE (wavHeader 48000 1000) 16 4 = 16
      ∧ readLE (wavHeader 48000 1000) 20 2 = 1
      ∧ readLE (wavHeader 48000 1000) 22 2 = 1
      ∧ readLE (wavHeader 48000 1000) 24 4 = 48000 % 4294967296
      ∧ readLE (wavHeader 48000 1000) 28 4 = (48000 * 2) % 4294967296
      ∧ readLE (wavHeader 48000 1000) 32 2 = 2
      ∧ readLE (wavHeader 48000 1000) 34 2 = 16
      ∧ readLE (wavHeader 48000 1000) 36 4 = 0x61746164
      ∧ readLE (wavHeader 48000 1000) 40 4 = 1000 % 4294967296
      ∧ sampleToPcm (1/2) = ratTrunc ((1/2) * 32767)
      ∧ -32767 ≤ sampleToPcm (1/2)
      ∧ sampleToPcm (1/2) ≤ 32767) :=
  ⟨by norm_num, by norm_num,
   wavWriter_layout 48000 1000 (1/2) (by norm_num) (by norm_num)⟩
